import Mathlib

/-!
Verification of the rust_stock_tracker command dispatch / CRUD-over-JSON-map /
session-state subsystem.

The definitions below are a shallow embedding of the final variant of the
repository (src/src/lib.rs, src/src/command.rs, src/src/user.rs,
src/src/stock.rs, src/src/error.rs).  Conventions:

* A Rust HashMap with String keys is modelled as an association list
  (StrMap) whose operations reproduce the observable map behaviour:
  insert replaces the value when the key is present and appends otherwise,
  erase removes the entry for the key.  Key uniqueness, which a HashMap
  maintains by construction, is the StrMap.WF predicate.
* Whole-file JSON persistence (UserMap.JSON, StockMap.JSON, State.JSON) is
  modelled by the Files record: a handler's reads are field accesses and a
  handler's writes are field updates, so a handler that fails before its
  write leaves Files unchanged by construction, and incomplete sequences of
  writes are visible.  I/O failures (unopenable or undeserialisable files)
  abort a handler before it mutates anything and are outside the claims
  checked here, so the happy I/O path is modelled.
* Rust u32 is modelled as Nat.  The only u32 arithmetic is the quantity
  increment in StockUnit.add_stock; u32 parsing rejects values at or above
  2^32, and an increment that exceeds u32::MAX aborts in the source (debug
  overflow checks) rather than returning a successful result, so successful
  runs are modelled by plain Nat addition.
* Rust f64 (the stock value field) is modelled as Rat; no claim exercises
  floating-point rounding, and the field is only carried along.
* PathBuf payloads of errors are modelled as String.
-/

namespace StockTracker

instance {ε α : Type} [DecidableEq ε] [DecidableEq α] :
    DecidableEq (Except ε α) := fun a b =>
  match a, b with
  | .ok x, .ok y =>
    if h : x = y then isTrue (by rw [h])
    else isFalse (fun hc => by cases hc; exact h rfl)
  | .error x, .error y =>
    if h : x = y then isTrue (by rw [h])
    else isFalse (fun hc => by cases hc; exact h rfl)
  | .ok _, .error _ => isFalse (fun hc => by cases hc)
  | .error _, .ok _ => isFalse (fun hc => by cases hc)

/-- Observable model of a Rust HashMap with String keys: an association
list.  A HashMap keeps at most one entry per key; that invariant is
StrMap.WF below. -/
abbrev StrMap (T : Type) : Type := List (String × T)

namespace StrMap

/-- HashMap::contains_key. -/
def containsKey {T : Type} (m : StrMap T) (k : String) : Bool :=
  m.any (fun p => p.1 == k)

/-- HashMap::get / get_mut viewed as a read. -/
def lookup {T : Type} (m : StrMap T) (k : String) : Option T :=
  (m.find? (fun p => p.1 == k)).map Prod.snd

/-- HashMap::insert: replace the value when the key is present, add the
entry otherwise. -/
def insert {T : Type} (m : StrMap T) (k : String) (v : T) : StrMap T :=
  match m with
  | [] => [(k, v)]
  | p :: t => if p.1 == k then (k, v) :: t else p :: insert t k v

/-- The map part of HashMap::remove: drop the entry for the key. -/
def erase {T : Type} (m : StrMap T) (k : String) : StrMap T :=
  match m with
  | [] => []
  | p :: t => if p.1 == k then t else p :: erase t k

/-- HashMap::remove: return the removed value (if any) with the remaining
map. -/
def remove {T : Type} (m : StrMap T) (k : String) : Option T × StrMap T :=
  (lookup m k, erase m k)

/-- HashMap::len. -/
def size {T : Type} (m : StrMap T) : Nat := m.length

/-- Number of entries stored under a key (1 or 0 in a well-formed map). -/
def keyCount {T : Type} (m : StrMap T) (k : String) : Nat :=
  m.countP (fun p => p.1 == k)

/-- Key uniqueness, which a HashMap maintains by construction. -/
def WF {T : Type} (m : StrMap T) : Prop := (m.map Prod.fst).Nodup

instance {T : Type} [DecidableEq T] (m : StrMap T) : Decidable (WF m) := by
  unfold WF; infer_instance

theorem containsKey_nil {T : Type} (k : String) :
    containsKey ([] : StrMap T) k = false := rfl

theorem containsKey_cons {T : Type} (p : String × T) (t : StrMap T) (k : String) :
    containsKey (p :: t) k = (p.1 == k || containsKey t k) := by
  simp [containsKey]

theorem lookup_nil {T : Type} (k : String) :
    lookup ([] : StrMap T) k = none := rfl

theorem lookup_cons {T : Type} (p : String × T) (t : StrMap T) (k : String) :
    lookup (p :: t) k = if p.1 == k then some p.2 else lookup t k := by
  by_cases h : p.1 == k <;> simp [lookup, List.find?_cons, h]

theorem containsKey_eq_isSome_lookup {T : Type} (m : StrMap T) (k : String) :
    containsKey m k = (lookup m k).isSome := by
  induction m with
  | nil => rfl
  | cons p t ih =>
    rw [containsKey_cons, lookup_cons]
    by_cases h : p.1 == k <;> simp [h, ih]

theorem lookup_insert {T : Type} (m : StrMap T) (k : String) (v : T) :
    lookup (insert m k v) k = some v := by
  induction m with
  | nil => simp [insert, lookup_cons]
  | cons p t ih =>
    rw [insert]
    by_cases h : p.1 == k <;> simp [h, lookup_cons, ih]

theorem lookup_insert_ne {T : Type} (m : StrMap T) (k j : String) (v : T)
    (hne : j ≠ k) : lookup (insert m k v) j = lookup m j := by
  induction m with
  | nil =>
    simp [insert, lookup_cons, lookup_nil]
    intro h
    exact absurd h.symm hne
  | cons p t ih =>
    rw [insert]
    by_cases h : p.1 == k
    · rw [if_pos h, lookup_cons, lookup_cons]
      have hk : p.1 = k := by simpa using h
      have h1 : ¬((k : String) == j) = true := by simp [Ne.symm hne]
      have h2 : ¬((p.1 : String) == j) = true := by simp [hk, Ne.symm hne]
      simp [h1, h2]
    · rw [if_neg h, lookup_cons, lookup_cons, ih]

theorem containsKey_insert_self {T : Type} (m : StrMap T) (k : String) (v : T) :
    containsKey (insert m k v) k = true := by
  rw [containsKey_eq_isSome_lookup, lookup_insert]; rfl

theorem containsKey_insert_ne {T : Type} (m : StrMap T) (k j : String) (v : T)
    (hne : j ≠ k) : containsKey (insert m k v) j = containsKey m j := by
  rw [containsKey_eq_isSome_lookup, containsKey_eq_isSome_lookup,
    lookup_insert_ne m k j v hne]

theorem size_insert_of_containsKey {T : Type} (m : StrMap T) (k : String) (v : T)
    (h : containsKey m k = true) : size (insert m k v) = size m := by
  induction m with
  | nil => simp [containsKey] at h
  | cons p t ih =>
    rw [insert]
    by_cases hp : p.1 == k
    · simp [hp, size]
    · rw [containsKey_cons] at h
      simp only [hp, Bool.false_or] at h
      simp [hp, size, List.length_cons] at ih ⊢
      exact ih h

theorem size_insert_of_not_containsKey {T : Type} (m : StrMap T) (k : String) (v : T)
    (h : containsKey m k = false) : size (insert m k v) = size m + 1 := by
  induction m with
  | nil => rfl
  | cons p t ih =>
    rw [containsKey_cons] at h
    simp only [Bool.or_eq_false_iff] at h
    rw [insert, if_neg (by simp [h.1])]
    simp [size, List.length_cons] at ih ⊢
    exact ih h.2

theorem lookup_erase_ne {T : Type} (m : StrMap T) (k j : String)
    (hne : j ≠ k) : lookup (erase m k) j = lookup m j := by
  induction m with
  | nil => rfl
  | cons p t ih =>
    rw [erase]
    by_cases h : p.1 == k
    · have hk : p.1 = k := by simpa using h
      rw [if_pos h, lookup_cons, if_neg (by simp [hk, Ne.symm hne])]
    · rw [if_neg h, lookup_cons, lookup_cons, ih]

theorem containsKey_erase_ne {T : Type} (m : StrMap T) (k j : String)
    (hne : j ≠ k) : containsKey (erase m k) j = containsKey m j := by
  rw [containsKey_eq_isSome_lookup, containsKey_eq_isSome_lookup,
    lookup_erase_ne m k j hne]

theorem size_erase_of_containsKey {T : Type} (m : StrMap T) (k : String)
    (h : containsKey m k = true) : size (erase m k) = size m - 1 := by
  induction m with
  | nil => simp [containsKey] at h
  | cons p t ih =>
    rw [erase]
    by_cases hp : p.1 == k
    · simp [hp, size]
    · rw [containsKey_cons] at h
      simp only [hp, Bool.false_or] at h
      have ht : 0 < t.length := by
        cases t with
        | nil => simp [containsKey] at h
        | cons q u => simp
      simp only [if_neg hp, size, List.length_cons] at ih ⊢
      rw [ih h]
      omega

theorem keys_insert_of_containsKey {T : Type} (m : StrMap T) (k : String) (v : T)
    (h : containsKey m k = true) :
    (insert m k v).map Prod.fst = m.map Prod.fst := by
  induction m with
  | nil => simp [containsKey] at h
  | cons p t ih =>
    rw [insert]
    by_cases hp : p.1 == k
    · have hk : p.1 = k := by simpa using hp
      simp [hp, hk]
    · rw [containsKey_cons] at h
      simp only [hp, Bool.false_or] at h
      simp [hp, ih h]

theorem containsKey_erase_self_of_wf {T : Type} (m : StrMap T) (k : String)
    (hwf : WF m) : containsKey (erase m k) k = false := by
  induction m with
  | nil => rfl
  | cons p t ih =>
    rw [erase]
    unfold WF at hwf
    simp only [List.map_cons, List.nodup_cons] at hwf
    by_cases hp : p.1 == k
    · have hk : p.1 = k := by simpa using hp
      rw [if_pos hp]
      rw [containsKey_eq_isSome_lookup]
      cases hl : lookup t k with
      | none => rfl
      | some v =>
        exfalso
        have : (t.find? (fun p => p.1 == k)).map Prod.snd = some v := hl
        obtain ⟨q, hq, hqv⟩ := Option.map_eq_some'.mp this
        have hmem := List.mem_of_find?_eq_some hq
        have hpred := List.find?_some hq
        have hqk : q.1 = k := by simpa using hpred
        exact hwf.1 (hk ▸ hqk ▸ List.mem_map_of_mem Prod.fst hmem)
    · rw [if_neg hp, containsKey_cons, ih hwf.2]
      simp [hp]

theorem wf_insert_of_containsKey {T : Type} (m : StrMap T) (k : String) (v : T)
    (h : containsKey m k = true) (hwf : WF m) : WF (insert m k v) := by
  unfold WF
  rw [keys_insert_of_containsKey m k v h]
  exact hwf

theorem mem_insert {T : Type} (m : StrMap T) (k : String) (v : T)
    (p : String × T) (hp : p ∈ insert m k v) : p = (k, v) ∨ p ∈ m := by
  induction m with
  | nil => simp [insert] at hp; left; exact hp
  | cons q t ih =>
    rw [insert] at hp
    by_cases hq : q.1 == k
    · rw [if_pos hq] at hp
      rcases List.mem_cons.mp hp with h | h
      · left; exact h
      · right; exact List.mem_cons_of_mem q h
    · rw [if_neg hq] at hp
      rcases List.mem_cons.mp hp with h | h
      · right; exact h ▸ List.mem_cons_self q t
      · rcases ih h with h' | h'
        · left; exact h'
        · right; exact List.mem_cons_of_mem q h'

theorem keyCount_eq_zero_of_not_containsKey {T : Type} (m : StrMap T) (k : String)
    (h : containsKey m k = false) : keyCount m k = 0 := by
  unfold keyCount
  rw [List.countP_eq_zero]
  intro p hp
  unfold containsKey at h
  rw [List.any_eq_false] at h
  exact h p hp

theorem keyCount_insert_of_not_containsKey {T : Type} (m : StrMap T)
    (k : String) (v : T) (h : containsKey m k = false) :
    keyCount (insert m k v) k = keyCount m k + 1 := by
  induction m with
  | nil => simp [insert, keyCount]
  | cons p t ih =>
    rw [containsKey_cons] at h
    simp only [Bool.or_eq_false_iff] at h
    rw [insert, if_neg (by simp [h.1])]
    unfold keyCount at ih ⊢
    rw [List.countP_cons, List.countP_cons, if_neg (by simp [h.1])]
    simpa using ih h.2

theorem keyCount_insert_of_containsKey {T : Type} (m : StrMap T)
    (k : String) (v : T) (h : containsKey m k = true) :
    keyCount (insert m k v) k = keyCount m k := by
  induction m with
  | nil => simp [containsKey] at h
  | cons p t ih =>
    rw [insert]
    by_cases hp : p.1 == k
    · simp [hp, keyCount, List.countP_cons]
    · rw [containsKey_cons] at h
      simp only [hp, Bool.false_or] at h
      rw [if_neg hp]
      unfold keyCount at ih ⊢
      rw [List.countP_cons, List.countP_cons, if_neg hp]
      simpa using ih h

end StrMap

/-- Model of Rust str::to_lowercase.  Every token the source lowercases
(verbs, property names, confirmation answers) is ASCII, where Unicode and
ASCII lowercasing agree; defined structurally over the character list so
that the kernel can evaluate it. -/
def lowerStr (s : String) : String :=
  ⟨s.data.map Char.toLower⟩

/-- Model of Rust str::trim: drop whitespace from both ends. -/
def trimStr (s : String) : String :=
  ⟨((s.data.dropWhile Char.isWhitespace).reverse.dropWhile
      Char.isWhitespace).reverse⟩

/-- A non-empty all-digit character list read as a decimal Nat (the digit
part shared by the integer parsers). -/
def digitsToNat? (cs : List Char) : Option Nat :=
  if cs ≠ [] ∧ cs.all Char.isDigit then
    some (cs.foldl (fun n c => n * 10 + (c.toNat - '0'.toNat)) 0)
  else none

/-- Error type from src/src/error.rs, together with the InputParseError and
ImpossibleStateError variants that src/src/lib.rs and src/src/user.rs
construct. -/
inductive ProjectError where
  | IOHashMapOpenError (path : String)
  | IOHashMapWriteError (path : String)
  | IOStateOpenError (path : String)
  | IOStateWriteError (path : String)
  | SerializeJSONError
  | DeserializeJSONError (path : String)
  | HashMapInsertError (key : String)
  | HashMapRemoveError (key : String)
  | HashMapKeyNotFoundError (key : String)
  | UserNewError
  | StockNewError
  | ConfigNoCommandError
  | ConfigArgumentsError (command : String)
  | ConfigCreateDirectoryError (path : String)
  | ConfigHomeDirectoryNotFoundError
  | CommandInvalidError
  | StateInvalidUserError (username : String)
  | StateNoUserError
  | InvalidInputError
  | InputParseError (value : String) (ty : String)
  | ImpossibleStateError
  deriving DecidableEq, Repr

/-- StateCommand from src/src/command.rs. -/
inductive StateCommand where
  | Login
  | Logout
  deriving DecidableEq, Repr

/-- UserCommand from src/src/command.rs. -/
inductive UserCommand where
  | Create
  | Delete
  | Edit
  | List
  deriving DecidableEq, Repr

/-- StockCommand from src/src/command.rs. -/
inductive StockCommand where
  | Create
  | Delete
  | Edit
  | List
  deriving DecidableEq, Repr

/-- PortfolioCommand from src/src/command.rs. -/
inductive PortfolioCommand where
  | Buy
  | List
  deriving DecidableEq, Repr

/-- Command from src/src/command.rs. -/
inductive Command where
  | Init
  | Console
  | Exit
  | StateC (c : StateCommand)
  | UserC (c : UserCommand)
  | StockC (c : StockCommand)
  | PortfolioC (c : PortfolioCommand)
  deriving DecidableEq, Repr

/-- The body of the match in Command::new, which scrutinises the lowercased
token. -/
def Command.ofLower (s : String) : Except ProjectError Command :=
  match s with
  | "i" | "init" => .ok .Init
  | "co" | "console" => .ok .Console
  | "q" | "quit" | "exit" => .ok .Exit
  | "li" | "login" => .ok (.StateC .Login)
  | "lo" | "logout" => .ok (.StateC .Logout)
  | "cu" | "create-user" => .ok (.UserC .Create)
  | "du" | "delete-user" => .ok (.UserC .Delete)
  | "eu" | "edit-user" => .ok (.UserC .Edit)
  | "lu" | "list-users" => .ok (.UserC .List)
  | "cs" | "create-stock" => .ok (.StockC .Create)
  | "ds" | "delete-stock" => .ok (.StockC .Delete)
  | "es" | "edit-stock" => .ok (.StockC .Edit)
  | "ls" | "list-stocks" => .ok (.StockC .List)
  | "bs" | "buy-stock" => .ok (.PortfolioC .Buy)
  | "lp" | "list-portfolio" => .ok (.PortfolioC .List)
  | _ => .error .CommandInvalidError

/-- Command::new from src/src/command.rs: match on the lowercased token. -/
def Command.new (s : String) : Except ProjectError Command :=
  Command.ofLower (lowerStr s)

/-- Command::num_args from src/src/command.rs (returns i32 in the source). -/
def Command.num_args : Command → Int
  | .Init => 0
  | .Console => 0
  | .Exit => 0
  | .StateC .Login => 1
  | .StateC .Logout => 0
  | .UserC .Create => 1
  | .UserC .Delete => 1
  | .UserC .Edit => 3
  | .UserC .List => 0
  | .StockC .Create => 1
  | .StockC .Delete => 1
  | .StockC .Edit => 3
  | .StockC .List => 0
  | .PortfolioC .Buy => 2
  | .PortfolioC .List => 0

/-- The Display implementation for Command from src/src/command.rs. -/
def Command.display : Command → String
  | .Init => "init"
  | .Console => "console"
  | .Exit => "exit"
  | .StateC .Login => "login"
  | .StateC .Logout => "logout"
  | .UserC .Create => "create-user"
  | .UserC .Delete => "delete-user"
  | .UserC .Edit => "edit-user"
  | .UserC .List => "list-users"
  | .StockC .Create => "create-stock"
  | .StockC .Delete => "delete-stock"
  | .StockC .Edit => "edit-stock"
  | .StockC .List => "list-stocks"
  | .PortfolioC .Buy => "buy-stock"
  | .PortfolioC .List => "list-portfolio"

/-- The full table of verb tokens (primary names and aliases) recognised by
Command::new. -/
def validVerbs : List String :=
  ["i", "init", "co", "console", "q", "quit", "exit", "li", "login",
   "lo", "logout", "cu", "create-user", "du", "delete-user", "eu",
   "edit-user", "lu", "list-users", "cs", "create-stock", "ds",
   "delete-stock", "es", "edit-stock", "ls", "list-stocks", "bs",
   "buy-stock", "lp", "list-portfolio"]

/-- Stock from src/src/stock.rs (value is f64 in the source, modelled as
Rat). -/
structure Stock where
  ticker : String
  company_name : String
  value : Rat
  deriving DecidableEq, Repr

/-- Stock::new from src/src/stock.rs. -/
def Stock.new : Except ProjectError Stock :=
  .ok { ticker := "ticker", company_name := "company_name", value := 0 }

/-- Stock::new_from_ticker from src/src/stock.rs. -/
def Stock.new_from_ticker (ticker : String) : Except ProjectError Stock :=
  .ok { ticker := ticker, company_name := "company_name", value := 0 }

/-- The property tags of stock::Property (the source returns a mutable
reference into the record; the tag identifies which field it points at). -/
inductive StockProperty where
  | Ticker
  | CompanyName
  | Value
  deriving DecidableEq, Repr

/-- Stock::get_property from src/src/stock.rs: match on the lowercased
property name. -/
def Stock.get_property (s : String) : Except ProjectError StockProperty :=
  match lowerStr s with
  | "t" | "ticker" => .ok .Ticker
  | "cn" | "company-name" | "companyname" => .ok .CompanyName
  | "v" | "value" => .ok .Value
  | _ => .error .InvalidInputError

/-- StockUnit from src/src/stock.rs (quantity is u32 in the source). -/
structure StockUnit where
  stock : Stock
  quantity : Nat
  deriving DecidableEq, Repr

/-- StockUnit::new from src/src/stock.rs (never fails). -/
def StockUnit.new (stock : Stock) (quantity : Nat) : Except ProjectError StockUnit :=
  .ok { stock := stock, quantity := quantity }

/-- StockUnit::add_stock from src/src/stock.rs: increment the quantity,
rejecting a non-positive increment. -/
def StockUnit.add_stock (su : StockUnit) (quantity : Nat) :
    Except ProjectError StockUnit :=
  if quantity > 0 then
    .ok { su with quantity := su.quantity + quantity }
  else
    .error .InvalidInputError

/-- User from src/src/user.rs. -/
structure User where
  username : String
  first_name : String
  last_name : String
  middle_initial : String
  portfolio : Option (StrMap StockUnit)
  deriving DecidableEq, Repr

/-- The property tags of user::Property. -/
inductive UserProperty where
  | Username
  | FirstName
  | LastName
  | MiddleInitial
  deriving DecidableEq, Repr

/-- User::get_property from src/src/user.rs: match on the lowercased
property name. -/
def User.get_property (s : String) : Except ProjectError UserProperty :=
  match lowerStr s with
  | "u" | "username" => .ok .Username
  | "fn" | "first-name" | "firstname" => .ok .FirstName
  | "ln" | "last-name" | "lastname" => .ok .LastName
  | "mi" | "middle-initial" | "middleinitial" => .ok .MiddleInitial
  | _ => .error .InvalidInputError

/-- User::add_stock_additional from src/src/user.rs: increment the existing
portfolio entry for the stock's ticker.  The source unwraps the get_mut
result; the unwrap cannot fail at the one call site (guarded by the failed
try_insert), and an absent portfolio yields ImpossibleStateError. -/
def User.add_stock_additional (u : User) (stock : Stock) (qt : Nat) :
    Except ProjectError User :=
  match u.portfolio with
  | some hashmap =>
    match StrMap.lookup hashmap stock.ticker with
    | some stock_unit =>
      match stock_unit.add_stock qt with
      | .ok su => .ok { u with portfolio := some (StrMap.insert hashmap stock.ticker su) }
      | .error e => .error e
    | none => .error .ImpossibleStateError
  | none => .error .ImpossibleStateError

/-- User::add_stock from src/src/user.rs: try_insert a fresh StockUnit under
the stock's ticker; if the key is occupied, fall back to
add_stock_additional; with no portfolio yet, create one holding the fresh
StockUnit. -/
def User.add_stock (u : User) (stock : Stock) (qt : Nat) :
    Except ProjectError User :=
  match u.portfolio with
  | some hashmap =>
    if StrMap.containsKey hashmap stock.ticker then
      u.add_stock_additional stock qt
    else
      match StockUnit.new stock qt with
      | .ok su => .ok { u with portfolio := some (StrMap.insert hashmap stock.ticker su) }
      | .error e => .error e
  | none =>
    match StockUnit.new stock qt with
    | .ok su => .ok { u with portfolio := some (StrMap.insert [] stock.ticker su) }
    | .error e => .error e

/-- Modelled from the spec: the repository's final user.rs calls
User::new_from_username, whose definition is not among the source files
(only User::new survives, and the analogous Stock::new_from_ticker);
following the spec's create policy it builds a default-valued record keyed
by the provided identifier. -/
def User.new_from_username (username : String) : Except ProjectError User :=
  .ok { username := username, first_name := "first_name",
        last_name := "last_name", middle_initial := "middle_initial",
        portfolio := none }

/-- State from src/src/lib.rs: the persisted session record. -/
structure State where
  logged_in : Bool
  current_user : Option String
  deriving DecidableEq, Repr

/-- The logged-out default State::init constructs when no state file
exists. -/
def State.defaults : State := { logged_in := false, current_user := none }

/-- State::set_user from src/src/lib.rs, without the file write (the write
is the Files.state update at call sites). -/
def State.set_user (_s : State) (username : String) : State :=
  { logged_in := true, current_user := some username }

/-- State::valid_user from src/src/lib.rs. -/
def State.valid_user (_s : State) (username : String)
    (hashmap : StrMap User) : Bool :=
  StrMap.containsKey hashmap username

/-- State::try_set_user from src/src/lib.rs: reject a username that is not
a key of the user map, otherwise log in as it. -/
def State.try_set_user (s : State) (username : String)
    (hashmap : StrMap User) : Except ProjectError State :=
  if ¬ (s.valid_user username hashmap = true) then
    .error (.StateInvalidUserError username)
  else
    .ok { logged_in := true, current_user := some username }

/-- State::clear_user from src/src/lib.rs. -/
def State.clear_user (_s : State) : State :=
  { logged_in := false, current_user := none }

/-- The session states reachable from the logged-out defaults through the
State operations (a failing try_set_user leaves the state unchanged, so it
adds no new states). -/
inductive State.Reachable : State → Prop where
  | init : State.Reachable State.defaults
  | set_user (s : State) (u : String) (h : State.Reachable s) :
      State.Reachable (s.set_user u)
  | try_set_user_ok (s : State) (u : String) (m : StrMap User) (s' : State)
      (h : State.Reachable s) (hok : s.try_set_user u m = .ok s') :
      State.Reachable s'
  | clear_user (s : State) (h : State.Reachable s) :
      State.Reachable s.clear_user

/-- Model of u32::from_str as used by parse_or_err::<u32>: an optional plus
sign, then decimal digits, with the value bounded by u32::MAX. -/
def parseU32 (s : String) : Option Nat :=
  let cs := match s.data with
            | '+' :: t => t
            | t => t
  match digitsToNat? cs with
  | some n => if n < 2 ^ 32 then some n else none
  | none => none

/-- parse_or_err::<u32> from src/src/lib.rs. -/
def parse_or_err_u32 (s : String) : Except ProjectError Nat :=
  match parseU32 s with
  | some n => .ok n
  | none => .error (.InputParseError s "u32")

/-- Model of f64::from_str as used by parse_or_err::<f64>: sign, integer
digits, optionally a dot and fractional digits, read exactly as a
rational.  IEEE rounding and the more exotic float forms (exponents,
infinities, a trailing or leading bare dot) are not modelled; no claim
exercises the stock value field. -/
def parseF64 (s : String) : Option Rat :=
  let (neg, cs) : Bool × List Char :=
    match s.data with
    | '-' :: t => (true, t)
    | '+' :: t => (false, t)
    | t => (false, t)
  let ip := cs.takeWhile (fun c => c ≠ '.')
  match cs.dropWhile (fun c => c ≠ '.') with
  | [] =>
    (digitsToNat? ip).map (fun n => if neg then -(n : Rat) else (n : Rat))
  | _ :: fp =>
    match digitsToNat? ip, digitsToNat? fp with
    | some n, some f =>
      let q : Rat := (n : Rat) + (f : Rat) / ((10 : Rat) ^ fp.length)
      some (if neg then -q else q)
    | _, _ => none

/-- parse_or_err::<f64> from src/src/lib.rs. -/
def parse_or_err_f64 (s : String) : Except ProjectError Rat :=
  match parseF64 s with
  | some v => .ok v
  | none => .error (.InputParseError s "f64")

/-- The persisted whole-file JSON stores: UserMap.JSON, StockMap.JSON and
State.JSON inside the configuration directory.  Handlers read fields and
write fields back, mirroring the read-modify-write cycle of the source. -/
structure Files where
  userMap : StrMap User
  stockMap : StrMap Stock
  state : State
  deriving DecidableEq, Repr

/-- create_user from src/src/lib.rs: modify_hashmap on the user map with a
try_insert of a fresh User; a failing mutation aborts before the save, so
the stores are returned unchanged on error. -/
def create_user (files : Files) (remainder : List String) :
    Files × Except ProjectError Unit :=
  let username := remainder.getD 0 ""
  match User.new_from_username username with
  | .error _ => (files, .error .UserNewError)
  | .ok u =>
    if StrMap.containsKey files.userMap username then
      (files, .error (.HashMapInsertError username))
    else
      ({ files with userMap := StrMap.insert files.userMap username u }, .ok ())

/-- create_stock from src/src/lib.rs: the same modify_hashmap pattern on
the stock map. -/
def create_stock (files : Files) (remainder : List String) :
    Files × Except ProjectError Unit :=
  let stock_id := remainder.getD 0 ""
  match Stock.new_from_ticker stock_id with
  | .error _ => (files, .error .StockNewError)
  | .ok st =>
    if StrMap.containsKey files.stockMap stock_id then
      (files, .error (.HashMapInsertError stock_id))
    else
      ({ files with stockMap := StrMap.insert files.stockMap stock_id st }, .ok ())

/-- delete_user from src/src/lib.rs.  The confirmation line read from stdin
is the ans argument; the source trims it, lowercases it and matches the
result, and only a yes answer runs the remove inside modify_hashmap. -/
def delete_user (files : Files) (remainder : List String) (ans : String) :
    Files × Except ProjectError Unit :=
  let username := remainder.getD 0 ""
  if ¬ (StrMap.containsKey files.userMap username = true) then
    (files, .error (.HashMapKeyNotFoundError username))
  else
    let ans₁ := lowerStr (trimStr ans)
    if ans₁ = "y" ∨ ans₁ = "yes" then
      match StrMap.remove files.userMap username with
      | (some _, m) => ({ files with userMap := m }, .ok ())
      | (none, _) => (files, .error (.HashMapRemoveError username))
    else if ans₁ = "q" ∨ ans₁ = "quit" ∨ ans₁ = "n" ∨ ans₁ = "no" then
      (files, .ok ())
    else
      (files, .error .InvalidInputError)

/-- edit_user from src/src/lib.rs: look the user up, resolve the property
name, assign the new value through the returned field reference, re-key the
map when the username itself was edited, write the user map, and then
update the session state when the edited user is the logged-in one — the
source compares the state's current_user against the NEW username
(new_username_2). -/
def edit_user (files : Files) (remainder : List String) :
    Files × Except ProjectError Unit :=
  let username := remainder.getD 0 ""
  match StrMap.lookup files.userMap username with
  | none => (files, .error (.HashMapKeyNotFoundError username))
  | some user =>
    let property := remainder.getD 1 ""
    let value := remainder.getD 2 ""
    match User.get_property property with
    | .error e => (files, .error e)
    | .ok p =>
      let user₁ : User :=
        match p with
        | .Username => { user with username := value }
        | .FirstName => { user with first_name := value }
        | .LastName => { user with last_name := value }
        | .MiddleInitial => { user with middle_initial := value }
      let update_username : Bool := p = UserProperty.Username
      let map₁ := StrMap.insert files.userMap username user₁
      let map₂ :=
        if update_username then
          StrMap.insert (StrMap.erase map₁ username) value user₁
        else map₁
      let files₁ := { files with userMap := map₂ }
      let state := files₁.state
      if update_username ∧ state.current_user = some value then
        ({ files₁ with state := state.set_user value }, .ok ())
      else
        (files₁, .ok ())

/-- edit_stock from src/src/lib.rs: the same pattern over the stock map,
with a numeric parse for the value property and a re-key for the ticker
property (no session state involvement). -/
def edit_stock (files : Files) (remainder : List String) :
    Files × Except ProjectError Unit :=
  let stock_id := remainder.getD 0 ""
  match StrMap.lookup files.stockMap stock_id with
  | none => (files, .error (.HashMapKeyNotFoundError stock_id))
  | some stock =>
    let property := remainder.getD 1 ""
    let value := remainder.getD 2 ""
    match Stock.get_property property with
    | .error e => (files, .error e)
    | .ok p =>
      match p with
      | .Ticker =>
        let stock₁ := { stock with ticker := value }
        let map₁ := StrMap.insert files.stockMap stock_id stock₁
        let map₂ := StrMap.insert (StrMap.erase map₁ stock_id) value stock₁
        ({ files with stockMap := map₂ }, .ok ())
      | .CompanyName =>
        let stock₁ := { stock with company_name := value }
        ({ files with stockMap := StrMap.insert files.stockMap stock_id stock₁ }, .ok ())
      | .Value =>
        match parse_or_err_f64 value with
        | .error e => (files, .error e)
        | .ok v =>
          let stock₁ := { stock with value := v }
          ({ files with stockMap := StrMap.insert files.stockMap stock_id stock₁ }, .ok ())

/-- buy_stock from src/src/lib.rs: require a logged-in user, parse the
quantity, look up the stock and the user, add the stock to the user's
portfolio and write the user map. -/
def buy_stock (files : Files) (remainder : List String) :
    Files × Except ProjectError Unit :=
  match files.state.current_user with
  | none => (files, .error .StateNoUserError)
  | some username =>
    let stock_id := remainder.getD 0 ""
    match parse_or_err_u32 (remainder.getD 1 "") with
    | .error e => (files, .error e)
    | .ok stock_qt =>
      match StrMap.lookup files.stockMap stock_id with
      | none => (files, .error (.HashMapKeyNotFoundError stock_id))
      | some stock =>
        match StrMap.lookup files.userMap username with
        | none => (files, .error (.HashMapKeyNotFoundError username))
        | some user =>
          match user.add_stock stock stock_qt with
          | .error e => (files, .error e)
          | .ok user₁ =>
            ({ files with userMap := StrMap.insert files.userMap username user₁ },
             .ok ())

/-- list_portfolio from src/src/lib.rs: require a logged-in user, look the
user up and print the holdings (printing has no store effect). -/
def list_portfolio (files : Files) (_remainder : List String) :
    Files × Except ProjectError Unit :=
  match files.state.current_user with
  | none => (files, .error .StateNoUserError)
  | some username =>
    match StrMap.lookup files.userMap username with
    | none => (files, .error (.HashMapKeyNotFoundError username))
    | some _user => (files, .ok ())

/-- The configuration-directory resolution inside Config::new: an env
override wins when set and non-empty, else a home-relative default, else
ConfigHomeDirectoryNotFoundError.  The environment and home directory are
explicit inputs of the model. -/
def resolve_configuration_directory (envVar : Option String)
    (homeDir : Option String) : Except ProjectError String :=
  match envVar with
  | some x =>
    if x ≠ "" then .ok x
    else
      match homeDir with
      | some p => .ok (p ++ "/.rust_stock_tracker")
      | none => .error .ConfigHomeDirectoryNotFoundError
  | none =>
    match homeDir with
    | some p => .ok (p ++ "/.rust_stock_tracker")
    | none => .error .ConfigHomeDirectoryNotFoundError

/-- Config from src/src/lib.rs. -/
structure Config where
  command : Command
  remainder : List String
  configuration_directory : String
  deriving DecidableEq, Repr

/-- Config::new from src/src/lib.rs: discard the program-name argument,
parse the verb token, collect the remainder, resolve the configuration
directory, then check the argument count (the source compares lengths as
i32) and finally create the directory if absent.  Whether the directory
exists and whether creating it succeeds are explicit inputs of the model. -/
def Config.new (args : List String) (envVar : Option String)
    (homeDir : Option String) (dirExists : Bool) (createDirOk : Bool) :
    Except ProjectError Config :=
  match args with
  | [] => .error .ConfigNoCommandError
  | _ :: rest =>
    match rest with
    | [] => .error .ConfigNoCommandError
    | cmdTok :: remainder =>
      match Command.new cmdTok with
      | .error e => .error e
      | .ok command =>
        match resolve_configuration_directory envVar homeDir with
        | .error e => .error e
        | .ok configuration_directory =>
          if (remainder.length : Int) < command.num_args then
            .error (.ConfigArgumentsError command.display)
          else if ¬ dirExists ∧ ¬ createDirOk then
            .error (.ConfigCreateDirectoryError configuration_directory)
          else
            .ok { command := command, remainder := remainder,
                  configuration_directory := configuration_directory }

/-- Observer: the StockUnit a user holds for a ticker, read through the
user map (none when the user, the portfolio or the entry is absent). -/
def heldUnit (files : Files) (uname t : String) : Option StockUnit :=
  match StrMap.lookup files.userMap uname with
  | some u =>
    match u.portfolio with
    | some m => StrMap.lookup m t
    | none => none
  | none => none

/-- Sample stock record used by concrete witnesses. -/
def fooStock : Stock :=
  { ticker := "FOO", company_name := "company_name", value := 0 }

/-- Sample user with no holdings used by concrete witnesses. -/
def aliceUser : User :=
  { username := "alice", first_name := "first_name",
    last_name := "last_name", middle_initial := "middle_initial",
    portfolio := none }

/-- Sample stores with one user (no holdings), one stock and a session
logged in as the user. -/
def sampleFiles : Files :=
  { userMap := [("alice", aliceUser)],
    stockMap := [("FOO", fooStock)],
    state := { logged_in := true, current_user := some "alice" } }

/-- C5: every reachable session state satisfies the invariant, and each
State operation (set_user, a succeeding try_set_user, clear_user)
establishes it. -/
theorem state_session_invariant :
    (∀ s : State, State.Reachable s → s.current_user.isSome = s.logged_in) ∧
    (∀ (s : State) (u : String),
       (s.set_user u).current_user.isSome = (s.set_user u).logged_in) ∧
    (∀ (s : State) (u : String) (m : StrMap User) (s' : State),
       s.try_set_user u m = .ok s' → s'.current_user.isSome = s'.logged_in) ∧
    (∀ s : State, s.clear_user.current_user.isSome = s.clear_user.logged_in) := by
  have htry : ∀ (s : State) (u : String) (m : StrMap User) (s' : State),
      s.try_set_user u m = .ok s' → s'.current_user.isSome = s'.logged_in := by
    intro s u m s' hok
    unfold State.try_set_user at hok
    split at hok
    · cases hok
    · cases hok; rfl
  refine ⟨?_, fun s u => rfl, htry, fun s => rfl⟩
  intro s h
  induction h with
  | init => rfl
  | set_user s u h ih => rfl
  | try_set_user_ok s u m s' h hok ih => exact htry s u m s' hok
  | clear_user s h ih => rfl

/-- C5 witness: the invariant at a concrete reachable state. -/
theorem state_session_invariant_witness :
    (State.defaults.set_user "alice").current_user.isSome =
      (State.defaults.set_user "alice").logged_in :=
  state_session_invariant.1 (State.defaults.set_user "alice")
    (State.Reachable.set_user State.defaults "alice" State.Reachable.init)

/-- C6: with a logged-out session (current_user is none), buy_stock and
list_portfolio fail with StateNoUserError and return the stores
unchanged. -/
theorem logged_out_guard (files : Files) (rem rem' : List String)
    (h : files.state.current_user = none) :
    buy_stock files rem = (files, .error .StateNoUserError) ∧
    list_portfolio files rem' = (files, .error .StateNoUserError) := by
  constructor
  · unfold buy_stock; rw [h]
  · unfold list_portfolio; rw [h]

/-- C6 witness: the guard at concrete logged-out stores. -/
theorem logged_out_guard_witness :
    buy_stock { sampleFiles with state := State.defaults } ["FOO", "1"] =
      ({ sampleFiles with state := State.defaults }, .error .StateNoUserError) ∧
    list_portfolio { sampleFiles with state := State.defaults } [] =
      ({ sampleFiles with state := State.defaults }, .error .StateNoUserError) :=
  logged_out_guard { sampleFiles with state := State.defaults } ["FOO", "1"] [] rfl

/-- C7: parsing the canonical display name of every command yields the
command back, and parsing is case-insensitive — any token whose lowercase
form is a valid verb string parses exactly as that lowercase form does. -/
theorem command_parse_round_trip :
    (∀ c : Command, Command.new (Command.display c) = .ok c) ∧
    (∀ (v s : String), s ∈ validVerbs → lowerStr v = s →
       Command.new v = Command.new s) := by
  constructor
  · intro c
    cases c with
    | Init => decide
    | Console => decide
    | Exit => decide
    | StateC sc => cases sc <;> decide
    | UserC uc => cases uc <;> decide
    | StockC sc => cases sc <;> decide
    | PortfolioC pc => cases pc <;> decide
  · intro v s hs hlow
    have hfix : ∀ x ∈ validVerbs, lowerStr x = x := by decide
    unfold Command.new
    rw [hlow, hfix s hs]

/-- C7 witness: a concrete case variant of an alias parses as its
lowercase form. -/
theorem command_parse_round_trip_witness :
    Command.new "CU" = Command.new "cu" :=
  command_parse_round_trip.2 "CU" "cu" (by decide) (by decide)

/-- C8: num_args is the fixed table of the spec, and — for a valid verb
token and a resolvable configuration directory — argument binding fails
with ConfigArgumentsError carrying the command's display name exactly when
fewer trailing tokens are supplied than num_args requires. -/
theorem num_args_table_and_binding :
    (Command.Init.num_args = 0 ∧ Command.Console.num_args = 0 ∧
     Command.Exit.num_args = 0 ∧ (Command.StateC .Login).num_args = 1 ∧
     (Command.StateC .Logout).num_args = 0 ∧
     (Command.UserC .Create).num_args = 1 ∧
     (Command.UserC .Delete).num_args = 1 ∧
     (Command.UserC .Edit).num_args = 3 ∧
     (Command.UserC .List).num_args = 0 ∧
     (Command.StockC .Create).num_args = 1 ∧
     (Command.StockC .Delete).num_args = 1 ∧
     (Command.StockC .Edit).num_args = 3 ∧
     (Command.StockC .List).num_args = 0 ∧
     (Command.PortfolioC .Buy).num_args = 2 ∧
     (Command.PortfolioC .List).num_args = 0) ∧
    (∀ (prog cmdTok : String) (remainder : List String)
       (envVar homeDir : Option String) (dirExists createDirOk : Bool)
       (cmd : Command) (d : String),
       Command.new cmdTok = .ok cmd →
       resolve_configuration_directory envVar homeDir = .ok d →
       (Config.new (prog :: cmdTok :: remainder) envVar homeDir dirExists
           createDirOk =
          .error (.ConfigArgumentsError cmd.display) ↔
        (remainder.length : Int) < cmd.num_args)) := by
  constructor
  · decide
  · intro prog cmdTok remainder envVar homeDir dirExists createDirOk cmd d
      hcmd hdir
    simp only [Config.new, hcmd, hdir]
    by_cases hlt : (remainder.length : Int) < cmd.num_args
    · rw [if_pos hlt]
      simp [hlt]
    · rw [if_neg hlt]
      apply iff_of_false
      · intro h
        split at h
        · cases h
        · cases h
      · exact hlt

/-- C8 witness: edit-user with a single trailing token is rejected for
too few arguments. -/
theorem num_args_table_and_binding_witness :
    Config.new ["prog", "edit-user", "a"] (some "/cfg") none true true =
        .error (.ConfigArgumentsError (Command.UserC .Edit).display) ↔
      ((["a"] : List String).length : Int) < (Command.UserC .Edit).num_args :=
  num_args_table_and_binding.2 "prog" "edit-user" ["a"] (some "/cfg") none
    true true (Command.UserC .Edit) "/cfg" (by decide) (by decide)

/-- C4: creating a user or a stock whose key is already present fails with
HashMapInsertError and returns the stores unchanged (the failing mutation
aborts the transactional modify before any save). -/
theorem create_insert_conflict (files : Files) (u t : String)
    (restU restS : List String)
    (hu : StrMap.containsKey files.userMap u = true)
    (ht : StrMap.containsKey files.stockMap t = true) :
    create_user files (u :: restU) = (files, .error (.HashMapInsertError u)) ∧
    create_stock files (t :: restS) =
      (files, .error (.HashMapInsertError t)) := by
  constructor
  · simp [create_user, User.new_from_username, hu]
  · simp [create_stock, Stock.new_from_ticker, ht]

/-- C4 witness: re-creating the sample user and the sample stock fails
with the insert conflict and changes nothing. -/
theorem create_insert_conflict_witness :
    create_user sampleFiles ["alice"] =
      (sampleFiles, .error (.HashMapInsertError "alice")) ∧
    create_stock sampleFiles ["FOO"] =
      (sampleFiles, .error (.HashMapInsertError "FOO")) :=
  create_insert_conflict sampleFiles "alice" "FOO" [] [] (by decide) (by decide)

/-- C9: for a user present in the map, delete-user is a successful no-op
on a (case-insensitive) no/n/q/quit confirmation, removes the key on a
yes/y confirmation, and fails with InvalidInputError leaving the map
unchanged on any other confirmation input. -/
theorem delete_user_confirmation (files : Files) (u : String)
    (rest : List String) (ans : String)
    (hu : StrMap.containsKey files.userMap u = true) :
    (lowerStr (trimStr ans) ∈ (["n", "no", "q", "quit"] : List String) →
       delete_user files (u :: rest) ans = (files, .ok ())) ∧
    (lowerStr (trimStr ans) ∈ (["y", "yes"] : List String) →
       delete_user files (u :: rest) ans =
         ({ files with userMap := StrMap.erase files.userMap u }, .ok ())) ∧
    (lowerStr (trimStr ans) ∉
         (["n", "no", "q", "quit", "y", "yes"] : List String) →
       delete_user files (u :: rest) ans =
         (files, .error .InvalidInputError)) := by
  obtain ⟨recU, hrec⟩ : ∃ r, StrMap.lookup files.userMap u = some r := by
    rw [StrMap.containsKey_eq_isSome_lookup] at hu
    exact Option.isSome_iff_exists.mp hu
  simp only [delete_user, List.getD_cons_zero, hu, not_true, if_false,
    Bool.true_eq_false, not_false_eq_true, if_neg]
  generalize lowerStr (trimStr ans) = a
  refine ⟨?_, ?_, ?_⟩
  · intro hmem
    fin_cases hmem <;> rw [if_neg (by decide), if_pos (by decide)]
  · intro hmem
    fin_cases hmem <;>
      · rw [if_pos (by decide)]
        simp [StrMap.remove, hrec]
  · intro hmem
    simp only [List.mem_cons, List.mem_singleton, not_or] at hmem
    obtain ⟨h1, h2, h3, h4, h5, h6⟩ := hmem
    rw [if_neg (by tauto), if_neg (by tauto)]

/-- C9 witness: declining the deletion of the sample user leaves the map
unchanged, confirming removes it, and an unrecognised answer fails. -/
theorem delete_user_confirmation_witness :
    (lowerStr (trimStr "no") ∈ (["n", "no", "q", "quit"] : List String) →
       delete_user sampleFiles ["alice"] "no" = (sampleFiles, .ok ())) ∧
    (lowerStr (trimStr "no") ∈ (["y", "yes"] : List String) →
       delete_user sampleFiles ["alice"] "no" =
         ({ sampleFiles with
              userMap := StrMap.erase sampleFiles.userMap "alice" }, .ok ())) ∧
    (lowerStr (trimStr "no") ∉
         (["n", "no", "q", "quit", "y", "yes"] : List String) →
       delete_user sampleFiles ["alice"] "no" =
         (sampleFiles, .error .InvalidInputError)) :=
  delete_user_confirmation sampleFiles "alice" [] "no" (by decide)

/-- C1: editing the sample user's username from alice to alicia renames
the map key and rewrites the username field, but the source compares the
session's current_user against the NEW username, so the logged-in
current_user alice is left stale instead of becoming alicia — the claim's
session-update clause fails on the code. -/
theorem edit_user_rename_stale_session :
    edit_user sampleFiles ["alice", "username", "alicia"] =
      ({ userMap := [("alicia", { aliceUser with username := "alicia" })],
         stockMap := [("FOO", fooStock)],
         state := { logged_in := true, current_user := some "alice" } },
       .ok ()) ∧
    (edit_user sampleFiles
        ["alice", "username", "alicia"]).1.state.current_user ≠
      some "alicia" := by
  constructor <;> decide

/-- Sample user holding 5 units of the sample stock. -/
def aliceHolding : User :=
  { aliceUser with portfolio := some [("FOO", ⟨fooStock, 5⟩)] }

/-- Sample stores in which the logged-in user already holds the sample
stock. -/
def heldFiles : Files :=
  { userMap := [("alice", aliceHolding)],
    stockMap := [("FOO", fooStock)],
    state := { logged_in := true, current_user := some "alice" } }

theorem User.add_stock_not_held (u : User) (st : Stock) (qt : Nat)
    (hfresh : ∀ m, u.portfolio = some m →
      StrMap.containsKey m st.ticker = false) :
    ∃ m₁, u.add_stock st qt = .ok { u with portfolio := some m₁ } ∧
      StrMap.lookup m₁ st.ticker = some ⟨st, qt⟩ ∧
      StrMap.keyCount m₁ st.ticker = 1 := by
  cases hp : u.portfolio with
  | none =>
    refine ⟨StrMap.insert ([] : StrMap StockUnit) st.ticker ⟨st, qt⟩, ?_, ?_, ?_⟩
    · simp [User.add_stock, hp, StockUnit.new]
    · exact StrMap.lookup_insert ([] : StrMap StockUnit) st.ticker ⟨st, qt⟩
    · rw [StrMap.keyCount_insert_of_not_containsKey ([] : StrMap StockUnit)
          st.ticker ⟨st, qt⟩ rfl]
      rfl
  | some m =>
    have hc := hfresh m hp
    refine ⟨StrMap.insert m st.ticker ⟨st, qt⟩, ?_, ?_, ?_⟩
    · simp [User.add_stock, hp, hc, StockUnit.new]
    · exact StrMap.lookup_insert m st.ticker ⟨st, qt⟩
    · rw [StrMap.keyCount_insert_of_not_containsKey m st.ticker _ hc,
        StrMap.keyCount_eq_zero_of_not_containsKey m st.ticker hc]

theorem User.add_stock_held (u : User) (st : Stock) (qt : Nat)
    (m : StrMap StockUnit) (su : StockUnit) (hm : u.portfolio = some m)
    (hsu : StrMap.lookup m st.ticker = some su) (hq : 0 < qt) :
    u.add_stock st qt =
      .ok { u with
        portfolio := some (StrMap.insert m st.ticker ⟨su.stock, su.quantity + qt⟩) } := by
  have hc : StrMap.containsKey m st.ticker = true := by
    rw [StrMap.containsKey_eq_isSome_lookup, hsu]; rfl
  simp [User.add_stock, User.add_stock_additional, hm, hc, hsu,
    StockUnit.add_stock, hq]

theorem User.add_stock_zero_held (u : User) (st : Stock)
    (m : StrMap StockUnit) (hm : u.portfolio = some m)
    (hc : StrMap.containsKey m st.ticker = true) :
    u.add_stock st 0 = .error .InvalidInputError := by
  obtain ⟨su, hsu⟩ : ∃ r, StrMap.lookup m st.ticker = some r := by
    rw [StrMap.containsKey_eq_isSome_lookup] at hc
    exact Option.isSome_iff_exists.mp hc
  simp [User.add_stock, User.add_stock_additional, hm, hc, hsu,
    StockUnit.add_stock]

theorem buy_stock_ok_eq (files : Files) (uname t s : String) (qt : Nat)
    (st : Stock) (user user₁ : User)
    (hcu : files.state.current_user = some uname)
    (hparse : parseU32 s = some qt)
    (hst : StrMap.lookup files.stockMap t = some st)
    (huser : StrMap.lookup files.userMap uname = some user)
    (hadd : user.add_stock st qt = .ok user₁) :
    buy_stock files [t, s] =
      ({ files with userMap := StrMap.insert files.userMap uname user₁ },
       .ok ()) := by
  have e0 : ([t, s] : List String).getD 0 "" = t := rfl
  have e1 : ([t, s] : List String).getD 1 "" = s := rfl
  simp [buy_stock, parse_or_err_u32, hcu, e0, e1, hparse, hst, huser, hadd]

theorem buy_stock_add_err_eq (files : Files) (uname t s : String) (qt : Nat)
    (st : Stock) (user : User) (e : ProjectError)
    (hcu : files.state.current_user = some uname)
    (hparse : parseU32 s = some qt)
    (hst : StrMap.lookup files.stockMap t = some st)
    (huser : StrMap.lookup files.userMap uname = some user)
    (hadd : user.add_stock st qt = .error e) :
    buy_stock files [t, s] = (files, .error e) := by
  have e0 : ([t, s] : List String).getD 0 "" = t := rfl
  have e1 : ([t, s] : List String).getD 1 "" = s := rfl
  simp [buy_stock, parse_or_err_u32, hcu, e0, e1, hparse, hst, huser, hadd]

/-- C2 counterexample: a buy of quantity zero for a ticker the logged-in
user does not yet hold SUCCEEDS and inserts a portfolio entry with
quantity 0 — the zero request is not rejected and the resulting entry is
not strictly positive. -/
theorem buy_zero_counterexample :
    (buy_stock sampleFiles ["FOO", "0"]).2 = .ok () ∧
    heldUnit (buy_stock sampleFiles ["FOO", "0"]).1 "alice" "FOO" =
      some ⟨fooStock, 0⟩ := by
  constructor <;> decide

/-- C2 amended: a zero-quantity buy is rejected with InvalidInputError
and leaves the stores unchanged when the ticker already has a portfolio
entry; a quantity token that does not parse as u32 (any negative token) is
rejected with InputParseError leaving the stores unchanged; a successful
buy of positive quantity preserves strict positivity of every portfolio
entry; but a zero-quantity buy of a ticker with no existing entry succeeds
and inserts an entry with quantity 0. -/
theorem buy_positivity_amended :
    (∀ (files : Files) (t uname : String) (user : User) (st : Stock)
       (m : StrMap StockUnit),
       files.state.current_user = some uname →
       StrMap.lookup files.stockMap t = some st →
       StrMap.lookup files.userMap uname = some user →
       user.portfolio = some m →
       StrMap.containsKey m st.ticker = true →
       buy_stock files [t, "0"] = (files, .error .InvalidInputError)) ∧
    (∀ (files : Files) (t s uname : String),
       files.state.current_user = some uname →
       parseU32 s = none →
       buy_stock files [t, s] = (files, .error (.InputParseError s "u32"))) ∧
    (∀ (u : User) (st : Stock) (qt : Nat) (u' : User),
       0 < qt →
       (∀ m, u.portfolio = some m → ∀ p ∈ m, 0 < p.2.quantity) →
       u.add_stock st qt = .ok u' →
       ∀ m, u'.portfolio = some m → ∀ p ∈ m, 0 < p.2.quantity) ∧
    (∀ (u : User) (st : Stock),
       (∀ m, u.portfolio = some m →
          StrMap.containsKey m st.ticker = false) →
       ∃ m', u.add_stock st 0 = .ok { u with portfolio := some m' } ∧
         StrMap.lookup m' st.ticker = some ⟨st, 0⟩) := by
  refine ⟨?_, ?_, ?_, ?_⟩
  · intro files t uname user st m hcu hst huser hm hc
    have hz := User.add_stock_zero_held user st m hm hc
    have hp : parseU32 "0" = some 0 := by decide
    exact buy_stock_add_err_eq files uname t "0" 0 st user _ hcu hp hst huser hz
  · intro files t s uname hcu hp
    have e0 : ([t, s] : List String).getD 0 "" = t := rfl
    have e1 : ([t, s] : List String).getD 1 "" = s := rfl
    simp [buy_stock, parse_or_err_u32, hcu, e0, e1, hp]
  · intro u st qt u' hq hpos hadd m' hm' p hp
    unfold User.add_stock at hadd
    cases hup : u.portfolio with
    | none =>
      simp only [hup, StockUnit.new] at hadd
      injection hadd with hadd
      subst hadd
      injection hm' with hm2
      subst hm2
      rcases StrMap.mem_insert ([] : StrMap StockUnit) st.ticker ⟨st, qt⟩
          p hp with h | h
      · rw [h]; exact hq
      · cases h
    | some m =>
      simp only [hup] at hadd
      by_cases hc : StrMap.containsKey m st.ticker = true
      · rw [if_pos hc] at hadd
        unfold User.add_stock_additional at hadd
        simp only [hup] at hadd
        cases hlk : StrMap.lookup m st.ticker with
        | none => simp [hlk] at hadd
        | some su =>
          simp only [hlk] at hadd
          unfold StockUnit.add_stock at hadd
          rw [if_pos hq] at hadd
          injection hadd with hadd
          subst hadd
          injection hm' with hm2
          subst hm2
          rcases StrMap.mem_insert m st.ticker _ p hp with h | h
          · rw [h]
            exact Nat.lt_of_lt_of_le hq (Nat.le_add_left qt su.quantity)
          · exact hpos m hup p h
      · rw [if_neg hc] at hadd
        simp only [StockUnit.new] at hadd
        injection hadd with hadd
        subst hadd
        injection hm' with hm2
        subst hm2
        rcases StrMap.mem_insert m st.ticker ⟨st, qt⟩ p hp with h | h
        · rw [h]; exact hq
        · exact hpos m hup p h
  · intro u st hfresh
    obtain ⟨m₁, hadd, hl, _⟩ := User.add_stock_not_held u st 0 hfresh
    exact ⟨m₁, hadd, hl⟩

/-- C2 witness: the amended statement at concrete inputs — a zero buy of
an already-held ticker is rejected, a negative token fails the parse, a
positive buy keeps the held entry positive, and a zero first buy creates
a zero-quantity entry. -/
theorem buy_positivity_amended_witness :
    buy_stock heldFiles ["FOO", "0"] =
      (heldFiles, .error .InvalidInputError) ∧
    buy_stock heldFiles ["FOO", "-5"] =
      (heldFiles, .error (.InputParseError "-5" "u32")) ∧
    0 < (StockUnit.mk fooStock 6).quantity ∧
    (∃ m', aliceUser.add_stock fooStock 0 =
        .ok { aliceUser with portfolio := some m' } ∧
      StrMap.lookup m' fooStock.ticker = some ⟨fooStock, 0⟩) :=
  ⟨buy_positivity_amended.1 heldFiles "FOO" "alice" aliceHolding fooStock
      [("FOO", ⟨fooStock, 5⟩)] rfl rfl rfl rfl (by decide),
   buy_positivity_amended.2.1 heldFiles "FOO" "-5" "alice" rfl (by decide),
   buy_positivity_amended.2.2.1 aliceHolding fooStock 1
      { aliceHolding with portfolio := some [("FOO", ⟨fooStock, 6⟩)] }
      (by decide) (by decide) (by decide)
      [("FOO", ⟨fooStock, 6⟩)] rfl ("FOO", ⟨fooStock, 6⟩) (by decide),
   buy_positivity_amended.2.2.2 aliceUser fooStock (by decide)⟩

/-- C3 counterexample: for a logged-in user who already holds 5 units of
the ticker, buying 1 and then 1 more yields a single entry of quantity 7,
not 1 + 1 — the claim as stated fails for users with a prior entry. -/
theorem buy_accumulation_counterexample :
    (buy_stock heldFiles ["FOO", "1"]).2 = .ok () ∧
    (buy_stock (buy_stock heldFiles ["FOO", "1"]).1 ["FOO", "1"]).2 =
      .ok () ∧
    heldUnit (buy_stock (buy_stock heldFiles ["FOO", "1"]).1
        ["FOO", "1"]).1 "alice" "FOO" = some ⟨fooStock, 7⟩ ∧
    heldUnit (buy_stock (buy_stock heldFiles ["FOO", "1"]).1
        ["FOO", "1"]).1 "alice" "FOO" ≠ some ⟨fooStock, 1 + 1⟩ := by
  refine ⟨?_, ?_, ?_, ?_⟩ <;> decide

/-- C3 amended: for a logged-in user whose portfolio has NO prior entry
for the ticker, buying q1 and then q2 (both parsed from their tokens,
positive) yields exactly one portfolio entry keyed by the ticker, with
quantity q1 + q2 — the second purchase accumulates into the entry the
first created, never creating a second entry or replacing the quantity. -/
theorem buy_accumulation_amended (files : Files) (uname t s₁ s₂ : String)
    (q₁ q₂ : Nat) (user : User) (st : Stock)
    (hcu : files.state.current_user = some uname)
    (huser : StrMap.lookup files.userMap uname = some user)
    (hst : StrMap.lookup files.stockMap t = some st)
    (hts : st.ticker = t)
    (hfresh : ∀ m, user.portfolio = some m →
      StrMap.containsKey m t = false)
    (hp₁ : parseU32 s₁ = some q₁) (hp₂ : parseU32 s₂ = some q₂)
    (hq₁ : 0 < q₁) (hq₂ : 0 < q₂) :
    ∃ (files₁ files₂ : Files) (user₂ : User) (m₂ : StrMap StockUnit),
      buy_stock files [t, s₁] = (files₁, .ok ()) ∧
      buy_stock files₁ [t, s₂] = (files₂, .ok ()) ∧
      StrMap.lookup files₂.userMap uname = some user₂ ∧
      user₂.portfolio = some m₂ ∧
      StrMap.keyCount m₂ t = 1 ∧
      StrMap.lookup m₂ t = some ⟨st, q₁ + q₂⟩ := by
  subst hts
  obtain ⟨m₁, hadd₁, hl₁, hk₁⟩ := User.add_stock_not_held user st q₁ hfresh
  have hbuy₁ : buy_stock files [st.ticker, s₁] =
      ({ files with
          userMap := StrMap.insert files.userMap uname
            ({ user with portfolio := some m₁ }) }, .ok ()) :=
    buy_stock_ok_eq files uname st.ticker s₁ q₁ st user _ hcu hp₁ hst huser
      hadd₁
  have hc₁ : StrMap.containsKey m₁ st.ticker = true := by
    rw [StrMap.containsKey_eq_isSome_lookup, hl₁]; rfl
  have hadd₂ : ({ user with portfolio := some m₁ } : User).add_stock st q₂ =
      .ok { user with
        portfolio := some (StrMap.insert m₁ st.ticker ⟨st, q₁ + q₂⟩) } :=
    User.add_stock_held ({ user with portfolio := some m₁ }) st q₂ m₁
      ⟨st, q₁⟩ rfl hl₁ hq₂
  have hbuy₂ := buy_stock_ok_eq
    ({ files with
        userMap := StrMap.insert files.userMap uname
          ({ user with portfolio := some m₁ }) })
    uname st.ticker s₂ q₂ st ({ user with portfolio := some m₁ })
    ({ user with
        portfolio := some (StrMap.insert m₁ st.ticker ⟨st, q₁ + q₂⟩) })
    hcu hp₂ hst (StrMap.lookup_insert files.userMap uname _) hadd₂
  refine ⟨_, _, _, StrMap.insert m₁ st.ticker ⟨st, q₁ + q₂⟩,
    hbuy₁, hbuy₂, StrMap.lookup_insert _ uname _, rfl, ?_, ?_⟩
  · rw [StrMap.keyCount_insert_of_containsKey m₁ st.ticker _ hc₁, hk₁]
  · exact StrMap.lookup_insert m₁ st.ticker ⟨st, q₁ + q₂⟩

/-- C3 witness: the amended statement at a fresh sample user — buying 5
then 3 units of the sample stock yields one entry of quantity 8. -/
theorem buy_accumulation_amended_witness :
    ∃ (files₁ files₂ : Files) (user₂ : User) (m₂ : StrMap StockUnit),
      buy_stock sampleFiles ["FOO", "5"] = (files₁, .ok ()) ∧
      buy_stock files₁ ["FOO", "3"] = (files₂, .ok ()) ∧
      StrMap.lookup files₂.userMap "alice" = some user₂ ∧
      user₂.portfolio = some m₂ ∧
      StrMap.keyCount m₂ "FOO" = 1 ∧
      StrMap.lookup m₂ "FOO" = some ⟨fooStock, 5 + 3⟩ :=
  buy_accumulation_amended sampleFiles "alice" "FOO" "5" "3" 5 3 aliceUser
    fooStock rfl rfl rfl rfl
    (by intro m hm; simp [aliceUser] at hm)
    (by decide) (by decide) (by decide) (by decide)

/-- Net effect of remove-and-reinsert under a new key on a well-formed
map: the old key disappears, the new key holds the edited record
(overwriting whatever the new key held), and the map shrinks by one
entry. -/
theorem StrMap.rekey_overwrite {T : Type} (m : StrMap T) (u v : String)
    (r : T) (hwf : WF m) (huv : u ≠ v) (hcu : containsKey m u = true)
    (hv : containsKey m v = true) :
    containsKey (insert (erase (insert m u r) u) v r) u = false ∧
    lookup (insert (erase (insert m u r) u) v r) v = some r ∧
    size (insert (erase (insert m u r) u) v r) = size m - 1 := by
  have hwf₁ : WF (insert m u r) := wf_insert_of_containsKey m u r hcu hwf
  have hcu₁ : containsKey (insert m u r) u = true :=
    containsKey_insert_self m u r
  have hv₁ : containsKey (insert m u r) v = true := by
    rw [containsKey_insert_ne m u v r (Ne.symm huv)]; exact hv
  have hue : containsKey (erase (insert m u r) u) u = false :=
    containsKey_erase_self_of_wf (insert m u r) u hwf₁
  have hve : containsKey (erase (insert m u r) u) v = true := by
    rw [containsKey_erase_ne (insert m u r) u v (Ne.symm huv)]; exact hv₁
  refine ⟨?_, lookup_insert _ v r, ?_⟩
  · rw [containsKey_insert_ne _ v u r huv]; exact hue
  · rw [size_insert_of_containsKey _ v r hve,
      size_erase_of_containsKey _ u hcu₁,
      size_insert_of_containsKey m u r hcu]

/-- The username-rename path of edit_user: the handler succeeds and the
written user map is the in-place edit re-keyed under the new username
(whatever the session branch then does to the state). -/
theorem edit_user_rename_maps (files : Files) (u v : String) (recU : User)
    (hu : StrMap.lookup files.userMap u = some recU) :
    (edit_user files [u, "username", v]).2 = .ok () ∧
    (edit_user files [u, "username", v]).1.userMap =
      StrMap.insert
        (StrMap.erase
          (StrMap.insert files.userMap u ({ recU with username := v })) u)
        v ({ recU with username := v }) := by
  have e0 : ([u, "username", v] : List String).getD 0 "" = u := rfl
  have e1 : ([u, "username", v] : List String).getD 1 "" = "username" := rfl
  have e2 : ([u, "username", v] : List String).getD 2 "" = v := rfl
  have hprop : User.get_property "username" = .ok .Username := by decide
  constructor <;>
  · simp only [edit_user, e0, e1, e2, hu, hprop]
    split <;> rfl

/-- The ticker-rename path of edit_stock: the handler succeeds and the
written stock map is the in-place edit re-keyed under the new ticker. -/
theorem edit_stock_rename_maps (files : Files) (t t' : String)
    (recT : Stock) (ht : StrMap.lookup files.stockMap t = some recT) :
    (edit_stock files [t, "ticker", t']).2 = .ok () ∧
    (edit_stock files [t, "ticker", t']).1.stockMap =
      StrMap.insert
        (StrMap.erase
          (StrMap.insert files.stockMap t ({ recT with ticker := t' })) t)
        t' ({ recT with ticker := t' }) := by
  have e0 : ([t, "ticker", t'] : List String).getD 0 "" = t := rfl
  have e1 : ([t, "ticker", t'] : List String).getD 1 "" = "ticker" := rfl
  have e2 : ([t, "ticker", t'] : List String).getD 2 "" = t' := rfl
  have hprop : Stock.get_property "ticker" = .ok .Ticker := by decide
  constructor <;> simp only [edit_stock, e0, e1, e2, ht, hprop]

/-- C10: renaming a user key u to an existing distinct key v (and a ticker
t to an existing distinct ticker t') succeeds with no conflict error;
afterwards the old key is gone, the new key holds the edited record —
silently overwriting the record previously stored there — and the map
shrank by one entry. -/
theorem edit_rename_overwrites (filesU filesS : Files) (u v t t' : String)
    (recU : User) (recT : Stock)
    (hwfU : StrMap.WF filesU.userMap) (huv : u ≠ v)
    (hu : StrMap.lookup filesU.userMap u = some recU)
    (hv : StrMap.containsKey filesU.userMap v = true)
    (hwfS : StrMap.WF filesS.stockMap) (htt : t ≠ t')
    (ht : StrMap.lookup filesS.stockMap t = some recT)
    (ht' : StrMap.containsKey filesS.stockMap t' = true) :
    ((edit_user filesU [u, "username", v]).2 = .ok () ∧
     StrMap.containsKey (edit_user filesU [u, "username", v]).1.userMap u =
       false ∧
     StrMap.lookup (edit_user filesU [u, "username", v]).1.userMap v =
       some ({ recU with username := v }) ∧
     StrMap.size (edit_user filesU [u, "username", v]).1.userMap =
       StrMap.size filesU.userMap - 1) ∧
    ((edit_stock filesS [t, "ticker", t']).2 = .ok () ∧
     StrMap.containsKey (edit_stock filesS [t, "ticker", t']).1.stockMap t =
       false ∧
     StrMap.lookup (edit_stock filesS [t, "ticker", t']).1.stockMap t' =
       some ({ recT with ticker := t' }) ∧
     StrMap.size (edit_stock filesS [t, "ticker", t']).1.stockMap =
       StrMap.size filesS.stockMap - 1) := by
  constructor
  · have hcu : StrMap.containsKey filesU.userMap u = true := by
      rw [StrMap.containsKey_eq_isSome_lookup, hu]; rfl
    obtain ⟨hok, hmap⟩ := edit_user_rename_maps filesU u v recU hu
    obtain ⟨h1, h2, h3⟩ := StrMap.rekey_overwrite filesU.userMap u v
      ({ recU with username := v }) hwfU huv hcu hv
    exact ⟨hok, by rw [hmap]; exact h1, by rw [hmap]; exact h2,
      by rw [hmap]; exact h3⟩
  · have hct : StrMap.containsKey filesS.stockMap t = true := by
      rw [StrMap.containsKey_eq_isSome_lookup, ht]; rfl
    obtain ⟨hok, hmap⟩ := edit_stock_rename_maps filesS t t' recT ht
    obtain ⟨h1, h2, h3⟩ := StrMap.rekey_overwrite filesS.stockMap t t'
      ({ recT with ticker := t' }) hwfS htt hct ht'
    exact ⟨hok, by rw [hmap]; exact h1, by rw [hmap]; exact h2,
      by rw [hmap]; exact h3⟩

/-- Second sample stock, for the rename-onto-existing-key witness. -/
def barStock : Stock := { fooStock with ticker := "BAR" }

/-- Second sample user, for the rename-onto-existing-key witness. -/
def bobUser : User := { aliceUser with username := "bob" }

/-- Sample stores with two users and two stocks. -/
def twoFiles : Files :=
  { userMap := [("alice", aliceUser), ("bob", bobUser)],
    stockMap := [("FOO", fooStock), ("BAR", barStock)],
    state := State.defaults }

/-- C10 witness: renaming alice to the existing key bob, and FOO to the
existing ticker BAR, drops the old keys, overwrites the existing records
and shrinks each map by one. -/
theorem edit_rename_overwrites_witness :
    ((edit_user twoFiles ["alice", "username", "bob"]).2 = .ok () ∧
     StrMap.containsKey
       (edit_user twoFiles ["alice", "username", "bob"]).1.userMap "alice" =
       false ∧
     StrMap.lookup
       (edit_user twoFiles ["alice", "username", "bob"]).1.userMap "bob" =
       some ({ aliceUser with username := "bob" }) ∧
     StrMap.size (edit_user twoFiles ["alice", "username", "bob"]).1.userMap =
       StrMap.size twoFiles.userMap - 1) ∧
    ((edit_stock twoFiles ["FOO", "ticker", "BAR"]).2 = .ok () ∧
     StrMap.containsKey
       (edit_stock twoFiles ["FOO", "ticker", "BAR"]).1.stockMap "FOO" =
       false ∧
     StrMap.lookup
       (edit_stock twoFiles ["FOO", "ticker", "BAR"]).1.stockMap "BAR" =
       some ({ fooStock with ticker := "BAR" }) ∧
     StrMap.size (edit_stock twoFiles ["FOO", "ticker", "BAR"]).1.stockMap =
       StrMap.size twoFiles.stockMap - 1) :=
  edit_rename_overwrites twoFiles twoFiles "alice" "bob" "FOO" "BAR"
    aliceUser fooStock (by decide) (by decide) (by decide) (by decide)
    (by decide) (by decide) (by decide) (by decide)

end StockTracker
